import Mathlib

set_option maxRecDepth 4000
set_option maxHeartbeats 1000000

/-!
Verification of the Alivvia finance ledger engine (src/app.py).

This file gives a shallow embedding of the claim-relevant parts of the
program: the transaction record, the import deduplication step, the
auto-classification rule engine, the reconciliation operations of the
conciliation screen, the amount normalizer of the import screen, and the
report aggregation of the reports screen.  Theorems at the end of the file
settle the frozen claims against these definitions.

Modelling conventions, used throughout:

* pandas DataFrames become `List Tx`, one element per row, in row order.
* Machine floats of the `valor`/`saldo` columns become `ℚ`.  Every amount
  appearing in a theorem below is exactly representable in binary float64
  (integers, halves and hundredths with small numerators), so the rational
  model agrees with the float computation on those inputs.
* A missing value (pandas `NaN`) in a string column and the empty string
  are modelled both as `""`; the source treats the two identically in every
  operation modelled here (`isna(x) or x == ""` tests, `fillna("")`).
* `str.contains` of pandas interprets its argument as a regular expression;
  every term the program ever stores in a rule (the defaults of
  `DEFAULT_RULES` and the learned tokens, which match `[a-zA-Z0-9]{4,}`)
  is free of regex metacharacters, so containment of the literal substring
  is the exact semantics; we model substring containment.
-/

namespace Alivvia

/-- Calendar date as produced by pandas date parsing: year, month, day. -/
structure Date where
  year : Nat
  month : Nat
  day : Nat
deriving DecidableEq, Repr

/-- Lexicographic order on dates, used for sorted group keys. -/
def dateLe (a b : Date) : Bool :=
  Nat.blt a.year b.year ||
    (a.year == b.year &&
      (Nat.blt a.month b.month || (a.month == b.month && Nat.ble a.day b.day)))

/-- Zero padding to two digits, as in the `YYYY-MM-DD` rendering of a
Python `datetime.date`. -/
def pad2 (n : Nat) : String :=
  if n < 10 then "0" ++ toString n else toString n

/-- Rendering of the `data` field inside an f-string: a parsed date prints
as `YYYY-MM-DD`, a missing date (pandas `NaT`) prints as `NaT`. -/
def dateStr : Option Date → String
  | none => "NaT"
  | some d => toString d.year ++ "-" ++ pad2 d.month ++ "-" ++ pad2 d.day

/-- Canonical rendering of a rational amount.  The source renders the
float64 amount with Python `str` inside the hash f-string; we use the
canonical rendering of the rational.  No theorem below depends on the
concrete digits: identity facts only ever compare rows whose amounts are
equal, where any fixed rendering agrees. -/
def ratStr (q : ℚ) : String :=
  if q.den = 1 then toString q.num else toString q.num ++ "/" ++ toString q.den

/-- The transaction record: one row of the `transactions.csv` base, with
the columns of `TX_COLUMNS` (src/app.py line 83). -/
structure Tx where
  tx_id : String
  empresa : String
  conta : String
  data : Option Date
  descricao : String
  doc : String
  valor : ℚ
  saldo : ℚ
  categoria : String
  fornecedor : String
  nf : String
  parcela : String
  datas_livres : List Date
  status_match : String
  origem : String
  created_at : String
  updated_at : String
deriving DecidableEq, Repr

/-- An auto-classification rule (src/app.py `DEFAULT_RULES` shape,
normalized by `load_rules`): description terms, doc terms, category,
supplier. -/
structure Rule where
  contains : List String
  in_doc : List String
  category : String
  supplier : String
deriving DecidableEq, Repr

/-- Categories that do not require a manual match
(src/app.py `AUTO_NO_MATCH_CATS`, line 156). -/
def AUTO_NO_MATCH_CATS : List String :=
  ["Deduções > Taxas/Chargebacks (marketplace)", "Despesas > Tarifas bancárias"]

/-- ASCII lower casing of a string, the model of `str.lower()`. -/
def strLower (s : String) : String := ⟨s.data.map Char.toLower⟩

/-- Whitespace stripping at both ends, the model of Python `strip()`. -/
def strTrim (s : String) : String :=
  ⟨((s.data.dropWhile Char.isWhitespace).reverse.dropWhile
      Char.isWhitespace).reverse⟩

/-- Whether the first character list starts with the second. -/
def listStartsWith : List Char → List Char → Bool
  | _, [] => true
  | [], _ :: _ => false
  | a :: s, b :: p => a == b && listStartsWith s p

/-- Whether the second character list occurs contiguously inside the
first.  The empty pattern occurs everywhere, matching the pandas
convention that `str.contains("")` is true. -/
def listHasSub : List Char → List Char → Bool
  | [], pat => listStartsWith [] pat
  | c :: s, pat => listStartsWith (c :: s) pat || listHasSub s pat

/-- Substring containment on strings: the model of
`series.str.contains(term)` for a literal term (see the module comment on
regex metacharacters). -/
def strContainsSub (s pat : String) : Bool := listHasSub s.data pat.data

/-- Left-to-right non-overlapping replacement of a non-empty pattern in a
character list, the semantics of Python `str.replace` and of the pandas
literal column replace used by the import normalizations.  The fuel
argument only drives structural recursion; each step consumes at least one
character, so fuel equal to the list length never runs out. -/
def replaceFuel (pat rep : List Char) : Nat → List Char → List Char
  | _, [] => []
  | 0, s => s
  | fuel + 1, c :: s =>
    if listStartsWith (c :: s) pat = true ∧ pat ≠ [] then
      rep ++ replaceFuel pat rep fuel (List.drop (pat.length - 1) s)
    else c :: replaceFuel pat rep fuel s

/-- String replacement built on `replaceFuel`. -/
def strReplace (s pat rep : String) : String :=
  ⟨replaceFuel pat.data rep.data s.data.length s.data⟩

/-- The match mask of one rule against one row (src/app.py lines 173-177):
any `contains` term occurs in the lower-cased description, or any `in_doc`
term occurs in the lower-cased doc.  The lower-cased columns are computed
once from `descricao`/`doc`, which no rule ever modifies, so evaluating
the mask on the current row is exact. -/
def ruleMatches (r : Rule) (t : Tx) : Bool :=
  r.contains.any (fun term => strContainsSub (strLower t.descricao) term) ||
    r.in_doc.any (fun term => strContainsSub (strLower t.doc) term)

/-- Step 1 of one rule application (src/app.py lines 179-180): if the rule
has a non-empty category (`if cat:`) then rows in the mask whose category
is unset (`isna` or `""`) receive the rule category. -/
def applyRuleCat (r : Rule) (t : Tx) : Tx :=
  if ruleMatches r t = true ∧ r.category ≠ "" ∧ t.categoria = "" then
    { t with categoria := r.category }
  else t

/-- Step 2 of one rule application (src/app.py lines 181-182): same for
the supplier field. -/
def applyRuleSup (r : Rule) (t : Tx) : Tx :=
  if ruleMatches r t = true ∧ r.supplier ≠ "" ∧ t.fornecedor = "" then
    { t with fornecedor := r.supplier }
  else t

/-- Step 3 of one rule application (src/app.py line 185): rows in the mask
with negative amount whose (possibly just assigned) category is in
`AUTO_NO_MATCH_CATS` get match status `N/A`. -/
def applyRuleStatus (r : Rule) (t : Tx) : Tx :=
  if ruleMatches r t = true ∧ t.valor < 0 ∧ t.categoria ∈ AUTO_NO_MATCH_CATS then
    { t with status_match := "N/A" }
  else t

/-- One iteration of the rule loop of `apply_auto_classification`
(src/app.py lines 167-185) on one row: category fill, supplier fill, then
the status update, which reads the category as updated by this iteration.
The mask is recomputed by each step from `descricao`/`doc`, which none of
the steps modifies, exactly as the source computes it once up front. -/
def applyRule (r : Rule) (t : Tx) : Tx :=
  applyRuleStatus r (applyRuleSup r (applyRuleCat r t))

/-- The whole rule loop on one row: rules applied in list order. -/
def applyAutoTx (rules : List Rule) (t : Tx) : Tx :=
  rules.foldl (fun acc r => applyRule r acc) t

/-- `apply_auto_classification` (src/app.py lines 161-188).  The pandas
code updates whole columns per rule, but each row is updated independently
of every other row (masks and conditions read only that row), so the
function is the row-wise map of `applyAutoTx`; the empty-frame early
return of line 162 is kept. -/
def applyAuto (rules : List Rule) (df : List Tx) : List Tx :=
  if df.isEmpty then df else df.map (applyAutoTx rules)

/-- ASCII alphanumeric test, the model of the `[a-zA-Z0-9]` class of
`learn_rule_from_match`. -/
def isAlnum (c : Char) : Bool :=
  (('a' ≤ c && c ≤ 'z') || ('A' ≤ c && c ≤ 'Z') || ('0' ≤ c && c ≤ '9'))

/-- Maximal runs of alphanumeric characters of a character list, in order;
`cur` accumulates the current run reversed. -/
def alnumRuns (cur : List Char) : List Char → List (List Char)
  | [] => if cur.isEmpty then [] else [cur.reverse]
  | c :: cs =>
    if isAlnum c then alnumRuns (c :: cur) cs
    else if cur.isEmpty then alnumRuns [] cs
    else cur.reverse :: alnumRuns [] cs

/-- The token list of `learn_rule_from_match` (src/app.py line 193):
`re.findall` of `[a-zA-Z0-9]{4,}` over the lower-cased stripped
description, i.e. the maximal alphanumeric runs of length at least 4. -/
def alnumTokens (s : String) : List String :=
  ((alnumRuns [] s.data).filter (fun run => 4 ≤ run.length)).map (fun run => ⟨run⟩)

/-- `learn_rule_from_match` (src/app.py lines 190-196): lower-case and
strip the description; learn nothing when it or the category is empty or
no token of length at least 4 exists; otherwise a one-term rule from the
first token.  Python `strip()` is modelled by `String.trim`. -/
def learnRuleFromMatch (descricao categoria fornecedor : String) : Option Rule :=
  if strLower (strTrim descricao) = "" ∨ categoria = "" then none
  else
    match alnumTokens (strLower (strTrim descricao)) with
    | [] => none
    | token :: _ =>
      some { contains := [token], in_doc := [], category := categoria,
             supplier := fornecedor }

/-- The rule list after the learning step of a saved match (src/app.py
lines 616-620): a learned rule is inserted at index 0. -/
def rulesAfterLearn (rules : List Rule) (descricao categoria fornecedor : String) :
    List Rule :=
  match learnRuleFromMatch descricao categoria fornecedor with
  | none => rules
  | some r => r :: rules

/-- `drop_duplicates(subset=["tx_id"], keep="first")` (src/app.py line
347): keep a row exactly when no earlier row (nor `seen`) carries its
`tx_id`. -/
def dropDupsBy (seen : List String) : List Tx → List Tx
  | [] => []
  | t :: rest =>
    if t.tx_id ∈ seen then dropDupsBy seen rest
    else t :: dropDupsBy (t.tx_id :: seen) rest

/-- Deduplication of a transaction list by `tx_id`, first occurrence
kept. -/
def dropDuplicatesByTxId (df : List Tx) : List Tx := dropDupsBy [] df

/-- One run of the import commit (src/app.py lines 344-353): concatenate
the stored base with the incoming batch, drop duplicate `tx_id` rows
keeping the first, auto-classify the merged frame, and save it. -/
def importStep (base tmp : List Tx) (rules : List Rule) : List Tx :=
  applyAuto rules (dropDuplicatesByTxId (base ++ tmp))

/-- The count reported by src/app.py line 354, `len(merged) - before`:
`apply_auto_classification` preserves length, so the post-classification
length equals the length right after deduplication. -/
def newlyInserted (base tmp : List Tx) : Int :=
  ((dropDuplicatesByTxId (base ++ tmp)).length : Int) - (base.length : Int)

/-- The string hashed into `tx_id` (src/app.py line 341):
`f"{empresa}-{conta}-{r['data']}-{r['descricao']}-{r['doc']}-{r['valor']}"`.
The source takes the md5 digest of this string; md5 is a deterministic
function of it, so two rows with equal hash input receive equal `tx_id`
and rows whose hash inputs collide receive colliding `tx_id`.  We work
with the hash input itself as the identity. -/
def hashInput (empresa conta : String) (data : Option Date)
    (descricao doc : String) (valor : ℚ) : String :=
  empresa ++ "-" ++ conta ++ "-" ++ dateStr data ++ "-" ++ descricao ++ "-" ++
    doc ++ "-" ++ ratStr valor

/-- Longest leading run of decimal digits of a character list, with the
rest. -/
def takeDigits : List Char → List Char × List Char
  | [] => ([], [])
  | c :: cs =>
    if c.isDigit then
      let p := takeDigits cs
      (c :: p.1, p.2)
    else ([], c :: cs)

/-- Numeric value of a digit run. -/
def digitsVal (cs : List Char) : Nat :=
  cs.foldl (fun acc c => 10 * acc + (c.toNat - 48)) 0

/-- Unsigned decimal literal: digits with at most one decimal point and at
least one digit, the fragment of the `pd.to_numeric` grammar exercised by
bank-amount strings (exponents, infinities and surrounding whitespace,
which the import data never contains, are out of the modelled subset and
fall to `none`, i.e. the same 0.0 sentinel). -/
def parseUnsigned (cs : List Char) : Option ℚ :=
  let p := takeDigits cs
  match p.2 with
  | [] => if p.1.isEmpty then none else some (mkRat (digitsVal p.1) 1)
  | '.' :: rest =>
    let q := takeDigits rest
    if q.2.isEmpty && !(p.1.isEmpty && q.1.isEmpty) then
      some (mkRat (digitsVal p.1 * 10 ^ q.1.length + digitsVal q.1)
        (10 ^ q.1.length))
    else none
  | _ => none

/-- `pd.to_numeric(v, errors="coerce")` followed by `fillna(0.0)`
(src/app.py line 324) on one cell: an optionally signed decimal literal,
any failure coerced to 0.0. -/
def pdToNumeric (s : String) : ℚ :=
  let res :=
    match s.data with
    | '-' :: rest => (parseUnsigned rest).map (fun q => -q)
    | '+' :: rest => parseUnsigned rest
    | cs => parseUnsigned cs
  res.getD 0

/-- The amount normalization of the import (src/app.py lines 322-324):
delete every `"."`, turn every `","` into `"."`, then coerce to a number
with failures becoming 0.0. -/
def parseValor (s : String) : ℚ :=
  pdToNumeric (strReplace (strReplace s "." "") "," ".")

/-- Field update of a saved match on the selected row (src/app.py lines
611-613): category, supplier, nf, installment, free dates, status
`Conciliado`, touched `updated_at`.  There is no validation of any kind
before this assignment. -/
def saveMatchTx (categoria fornecedor nf parcela : String) (datas : List Date)
    (now : String) (t : Tx) : Tx :=
  { t with categoria := categoria, fornecedor := fornecedor, nf := nf,
           parcela := parcela, datas_livres := datas,
           status_match := "Conciliado", updated_at := now }

/-- The Save Match button (src/app.py lines 610-614): rows whose `tx_id`
equals the selected one are overwritten by `saveMatchTx`, the rest are
untouched. -/
def saveMatch (df : List Tx) (txid categoria fornecedor nf parcela : String)
    (datas : List Date) (now : String) : List Tx :=
  df.map (fun t => if t.tx_id = txid then
            saveMatchTx categoria fornecedor nf parcela datas now t
          else t)

/-- The Reopen button (src/app.py lines 623-626): only `status_match` and
`updated_at` of the selected row change. -/
def reopenMatch (df : List Tx) (txid now : String) : List Tx :=
  df.map (fun t => if t.tx_id = txid then
            { t with status_match := "Pendente", updated_at := now }
          else t)

/-- The Undo button (src/app.py lines 628-632): category, supplier, nf,
installment and free dates of the selected row are cleared, the status
returns to `Pendente`, `updated_at` is touched. -/
def undoMatch (df : List Tx) (txid now : String) : List Tx :=
  df.map (fun t => if t.tx_id = txid then
            { t with categoria := "", fornecedor := "", nf := "", parcela := "",
                     datas_livres := [], status_match := "Pendente",
                     updated_at := now }
          else t)

/-- The base filter of the conciliation screen (src/app.py line 531):
company match and strictly negative amount.  Every further filter of the
screen only conjoins more conditions, so every selectable row passes this
mask. -/
def conciliacaoBaseMask (empresa : String) (t : Tx) : Bool :=
  t.empresa == empresa && decide (t.valor < 0)

/-- The rows offered for matching on the conciliation screen: the stored
frame restricted to the base mask. -/
def conciliacaoOptions (df : List Tx) (empresa : String) : List Tx :=
  df.filter (conciliacaoBaseMask empresa)

/-- The marketplace payout category (src/app.py lines 665, 704). -/
def REPASSE : String := "Receita > Vendas (repasse marketplace)"

/-- The DRE revenue mask (src/app.py line 665): payout category and
strictly positive amount. -/
def repasseMask (t : Tx) : Bool :=
  t.categoria == REPASSE && decide (0 < t.valor)

/-- Insertion into a date list sorted by `dateLe`. -/
def insertDateSorted (d : Date) : List Date → List Date
  | [] => [d]
  | x :: xs => if dateLe d x then d :: x :: xs else x :: insertDateSorted d xs

/-- The distinct parsed dates of a row list in ascending order: the group
keys of a pandas `groupby` over the date column (missing dates are dropped
by `groupby`, keys come out sorted). -/
def groupDates (rows : List Tx) : List Date :=
  rows.foldl
    (fun acc t =>
      match t.data with
      | none => acc
      | some d => if d ∈ acc then acc else insertDateSorted d acc)
    []

/-- Sum of the amounts of the rows carrying one given date. -/
def sumOnDate (rows : List Tx) (d : Date) : ℚ :=
  (rows.filter (fun t => t.data == some d)).foldl (fun a t => a + t.valor) 0

/-- `entradas_por_dia` of the DRE (src/app.py line 666): the masked payout
rows grouped by day, each day summed. -/
def entradasPorDia (dfE : List Tx) : List (Date × ℚ) :=
  (groupDates (dfE.filter repasseMask)).map
    (fun d => (d, sumOnDate (dfE.filter repasseMask) d))

/-- `receita_bruta` (src/app.py line 667): the sum of the daily payout
totals. -/
def receitaBruta (dfE : List Tx) : ℚ :=
  (entradasPorDia dfE).foldl (fun a p => a + p.2) 0

/-- The month frame of the reports screen (src/app.py lines 657-659):
company match and parsed date inside the selected year and month (a
missing date compares false). -/
def relatoriosDfE (df : List Tx) (empresa : String) (ano mes : Nat) : List Tx :=
  df.filter (fun t =>
    t.empresa == empresa &&
      (match t.data with
       | none => false
       | some d => d.year == ano && d.month == mes))

/-- One row of the accounting ledger view after the column selection of
src/app.py lines 717/722 (the display only `Saldo Acumulado` cumulative
sum of line 725 is appended after this selection and is not consulted by
any claim). -/
structure ContabRow where
  data : Option Date
  descricao : String
  destino : String
  entrada : ℚ
  saida : ℚ
  nf_out : String
  doc : String
  valor : ℚ
  categoria : String
  fornecedor : String
  empresa : String
deriving DecidableEq, Repr

/-- The NF display value (src/app.py line 690): `S/NF` when missing or
blank, else the stripped text. -/
def nfOut (nf : String) : String :=
  if strTrim nf = "" then "S/NF" else strTrim nf

/-- Python `strip(" |")`: both ends cleared of spaces and pipes. -/
def stripChars (s : String) (chars : List Char) : String :=
  ⟨((s.data.dropWhile (fun c => c ∈ chars)).reverse.dropWhile
      (fun c => c ∈ chars)).reverse⟩

/-- The `destino` column (src/app.py line 693):
`f"{categoria} | {fornecedor}"` stripped of `" |"` at both ends. -/
def destino (t : Tx) : String :=
  stripChars (t.categoria ++ " | " ++ t.fornecedor) [' ', '|']

/-- A non-payout ledger row (src/app.py lines 696-697, 721-722): `Entrada`
is overwritten to 0.0 on line 721, `Saída` is the absolute value of a
negative amount. -/
def saidaRow (t : Tx) : ContabRow :=
  { data := t.data, descricao := t.descricao, destino := destino t,
    entrada := 0, saida := if t.valor < 0 then -t.valor else 0,
    nf_out := nfOut t.nf, doc := t.doc, valor := t.valor,
    categoria := t.categoria, fornecedor := t.fornecedor,
    empresa := t.empresa }

/-- Character order by code point. -/
def charLt (a b : Char) : Bool := Nat.blt a.toNat b.toNat

/-- Lexicographic strict order on character lists. -/
def strLtL : List Char → List Char → Bool
  | [], [] => false
  | [], _ :: _ => true
  | _ :: _, [] => false
  | a :: as, b :: bs => charLt a b || (a == b && strLtL as bs)

/-- Order of `sort_values(by=["data", "descricao"])`: date first (missing
dates last, the pandas default), then description. -/
def rowLe (a b : ContabRow) : Bool :=
  match a.data, b.data with
  | none, none => !(strLtL b.descricao.data a.descricao.data)
  | none, some _ => false
  | some _, none => true
  | some x, some y =>
    (dateLe x y && !(dateLe y x)) ||
      (x == y && !(strLtL b.descricao.data a.descricao.data))

/-- Insertion into a ledger row list sorted by `rowLe`. -/
def insertRowSorted (r : ContabRow) : List ContabRow → List ContabRow
  | [] => [r]
  | x :: xs => if rowLe r x then r :: x :: xs else x :: insertRowSorted r xs

/-- Sorting of the ledger rows by `(data, descricao)`. -/
def sortRows : List ContabRow → List ContabRow
  | [] => []
  | x :: xs => insertRowSorted x (sortRows xs)

/-- The columns present on `ent_group` when src/app.py line 717 runs: the
`groupby("data", as_index=False).agg(\x7b"valor": "sum"\x7d)` of line 708
returns only the key column `data` and the aggregated column `valor`, and
lines 709-716 then add the listed display columns.  The original `empresa`
column of `entradas` is not among them. -/
def ent_group_columns : List String :=
  ["data", "valor", "descricao", "doc", "fornecedor", "categoria", "nf_out",
   "destino", "Entrada", "Saída"]

/-- The column list selected from `ent_group` on src/app.py line 717. -/
def entradas_fmt_selection : List String :=
  ["data", "descricao", "destino", "Entrada", "Saída", "nf_out", "doc",
   "valor", "categoria", "fornecedor", "empresa"]

/-- The accounting ledger view of the reports screen (src/app.py lines
703-725) on the month frame.  When the month has no payout-category row,
`entradas_fmt` is built empty with the full column list (line 719) and the
view is the sorted list of the non-payout rows.  When the month has at
least one payout-category row, line 717 selects `entradas_fmt_selection`
from a frame having only `ent_group_columns`; the column `empresa` is
absent, so pandas raises `KeyError` and no view is produced.  The raise is
modelled as `Except.error` carrying the pandas message. -/
def relatoriosContabil (dfE : List Tx) : Except String (List ContabRow) :=
  let entradas := dfE.filter (fun t => t.categoria == REPASSE)
  let saidas := dfE.filter (fun t => !(t.categoria == REPASSE))
  if entradas.isEmpty then
    Except.ok (sortRows (saidas.map saidaRow))
  else if entradas_fmt_selection.all (fun c => c ∈ ent_group_columns) then
    -- never reached: the guard is false because the selection asks for the
    -- column empresa, which ent_group does not carry
    Except.ok (sortRows (saidas.map saidaRow))
  else
    Except.error "KeyError: ['empresa'] not in index"

/-- Equality of every field that `apply_auto_classification` never
writes: all columns except `categoria`, `fornecedor` and `status_match`. -/
def SameCore (t u : Tx) : Prop :=
  u.tx_id = t.tx_id ∧ u.empresa = t.empresa ∧ u.conta = t.conta ∧
    u.data = t.data ∧ u.descricao = t.descricao ∧ u.doc = t.doc ∧
    u.valor = t.valor ∧ u.saldo = t.saldo ∧ u.nf = t.nf ∧
    u.parcela = t.parcela ∧ u.datas_livres = t.datas_livres ∧
    u.origem = t.origem ∧ u.created_at = t.created_at ∧
    u.updated_at = t.updated_at

/-- A transaction with every field empty or zero, used to build the
concrete rows of the closed theorems below. -/
def baseTx : Tx :=
  { tx_id := "", empresa := "", conta := "", data := none, descricao := "",
    doc := "", valor := 0, saldo := 0, categoria := "", fornecedor := "",
    nf := "", parcela := "", datas_livres := [], status_match := "",
    origem := "", created_at := "", updated_at := "" }

/-! ### Frame lemmas for the rule steps -/

theorem sameCore_refl (t : Tx) : SameCore t t := by
  unfold SameCore
  exact ⟨rfl, rfl, rfl, rfl, rfl, rfl, rfl, rfl, rfl, rfl, rfl, rfl, rfl, rfl⟩

theorem sameCore_trans {a b c : Tx} (h1 : SameCore a b) (h2 : SameCore b c) :
    SameCore a c := by
  unfold SameCore at *
  exact ⟨h2.1.trans h1.1, h2.2.1.trans h1.2.1, h2.2.2.1.trans h1.2.2.1,
    h2.2.2.2.1.trans h1.2.2.2.1, h2.2.2.2.2.1.trans h1.2.2.2.2.1,
    h2.2.2.2.2.2.1.trans h1.2.2.2.2.2.1,
    h2.2.2.2.2.2.2.1.trans h1.2.2.2.2.2.2.1,
    h2.2.2.2.2.2.2.2.1.trans h1.2.2.2.2.2.2.2.1,
    h2.2.2.2.2.2.2.2.2.1.trans h1.2.2.2.2.2.2.2.2.1,
    h2.2.2.2.2.2.2.2.2.2.1.trans h1.2.2.2.2.2.2.2.2.2.1,
    h2.2.2.2.2.2.2.2.2.2.2.1.trans h1.2.2.2.2.2.2.2.2.2.2.1,
    h2.2.2.2.2.2.2.2.2.2.2.2.1.trans h1.2.2.2.2.2.2.2.2.2.2.2.1,
    h2.2.2.2.2.2.2.2.2.2.2.2.2.1.trans h1.2.2.2.2.2.2.2.2.2.2.2.2.1,
    h2.2.2.2.2.2.2.2.2.2.2.2.2.2.trans h1.2.2.2.2.2.2.2.2.2.2.2.2.2⟩

theorem applyRuleCat_sameCore (r : Rule) (t : Tx) : SameCore t (applyRuleCat r t) := by
  unfold applyRuleCat SameCore
  split <;> simp

theorem applyRuleSup_sameCore (r : Rule) (t : Tx) : SameCore t (applyRuleSup r t) := by
  unfold applyRuleSup SameCore
  split <;> simp

theorem applyRuleStatus_sameCore (r : Rule) (t : Tx) :
    SameCore t (applyRuleStatus r t) := by
  unfold applyRuleStatus SameCore
  split <;> simp

theorem applyRule_sameCore (r : Rule) (t : Tx) : SameCore t (applyRule r t) := by
  unfold applyRule
  exact sameCore_trans (applyRuleCat_sameCore r t)
    (sameCore_trans (applyRuleSup_sameCore r (applyRuleCat r t))
      (applyRuleStatus_sameCore r (applyRuleSup r (applyRuleCat r t))))

theorem ruleMatches_of_sameCore {t u : Tx} (h : SameCore t u) (r : Rule) :
    ruleMatches r u = ruleMatches r t := by
  unfold ruleMatches
  rw [h.2.2.2.2.1, h.2.2.2.2.2.1]

/-- The category-fill step never writes the supplier column. -/
@[simp] theorem applyRuleCat_fornecedor (r : Rule) (t : Tx) :
    (applyRuleCat r t).fornecedor = t.fornecedor := by
  unfold applyRuleCat; split <;> rfl

/-- The category-fill step never writes the status column. -/
@[simp] theorem applyRuleCat_status_match (r : Rule) (t : Tx) :
    (applyRuleCat r t).status_match = t.status_match := by
  unfold applyRuleCat; split <;> rfl

/-- The supplier-fill step never writes the category column. -/
@[simp] theorem applyRuleSup_categoria (r : Rule) (t : Tx) :
    (applyRuleSup r t).categoria = t.categoria := by
  unfold applyRuleSup; split <;> rfl

/-- The supplier-fill step never writes the status column. -/
@[simp] theorem applyRuleSup_status_match (r : Rule) (t : Tx) :
    (applyRuleSup r t).status_match = t.status_match := by
  unfold applyRuleSup; split <;> rfl

/-- The status step never writes the category column. -/
@[simp] theorem applyRuleStatus_categoria (r : Rule) (t : Tx) :
    (applyRuleStatus r t).categoria = t.categoria := by
  unfold applyRuleStatus; split <;> rfl

/-- The status step never writes the supplier column. -/
@[simp] theorem applyRuleStatus_fornecedor (r : Rule) (t : Tx) :
    (applyRuleStatus r t).fornecedor = t.fornecedor := by
  unfold applyRuleStatus; split <;> rfl

/-! ### Category and supplier fill behaviour -/

theorem applyRuleCat_cat_of_ne (r : Rule) (t : Tx) (h : t.categoria ≠ "") :
    (applyRuleCat r t).categoria = t.categoria := by
  unfold applyRuleCat
  split
  · rename_i hc; exact absurd hc.2.2 h
  · rfl

theorem applyRuleCat_cat_empty (r : Rule) (t : Tx)
    (h : (applyRuleCat r t).categoria = "") : t.categoria = "" := by
  unfold applyRuleCat at h
  split at h
  · rename_i hc; exact absurd h hc.2.1
  · exact h

theorem applyRuleSup_forn_of_ne (r : Rule) (t : Tx) (h : t.fornecedor ≠ "") :
    (applyRuleSup r t).fornecedor = t.fornecedor := by
  unfold applyRuleSup
  split
  · rename_i hc; exact absurd hc.2.2 h
  · rfl

theorem applyRuleSup_forn_empty (r : Rule) (t : Tx)
    (h : (applyRuleSup r t).fornecedor = "") : t.fornecedor = "" := by
  unfold applyRuleSup at h
  split at h
  · rename_i hc; exact absurd h hc.2.1
  · exact h

theorem applyRule_categoria_eq (r : Rule) (t : Tx) :
    (applyRule r t).categoria = (applyRuleCat r t).categoria := by
  unfold applyRule
  rw [applyRuleStatus_categoria, applyRuleSup_categoria]

theorem applyRule_categoria_of_ne (r : Rule) (t : Tx) (h : t.categoria ≠ "") :
    (applyRule r t).categoria = t.categoria := by
  rw [applyRule_categoria_eq]
  exact applyRuleCat_cat_of_ne r t h

theorem applyRule_categoria_empty (r : Rule) (t : Tx)
    (h : (applyRule r t).categoria = "") : t.categoria = "" := by
  rw [applyRule_categoria_eq] at h
  exact applyRuleCat_cat_empty r t h

theorem applyRule_fornecedor_eq (r : Rule) (t : Tx) :
    (applyRule r t).fornecedor = (applyRuleSup r (applyRuleCat r t)).fornecedor := by
  unfold applyRule
  rw [applyRuleStatus_fornecedor]

theorem applyRule_fornecedor_of_ne (r : Rule) (t : Tx) (h : t.fornecedor ≠ "") :
    (applyRule r t).fornecedor = t.fornecedor := by
  rw [applyRule_fornecedor_eq]
  rw [applyRuleSup_forn_of_ne r (applyRuleCat r t)
    (by rw [applyRuleCat_fornecedor]; exact h)]
  exact applyRuleCat_fornecedor r t

theorem applyRule_fornecedor_empty (r : Rule) (t : Tx)
    (h : (applyRule r t).fornecedor = "") : t.fornecedor = "" := by
  rw [applyRule_fornecedor_eq] at h
  have h1 := applyRuleSup_forn_empty r (applyRuleCat r t) h
  rw [applyRuleCat_fornecedor] at h1
  exact h1

/-! ### Behaviour of the whole rule loop on one row -/

@[simp] theorem applyAutoTx_nil (t : Tx) : applyAutoTx [] t = t := rfl

theorem applyAutoTx_cons (r : Rule) (rules : List Rule) (t : Tx) :
    applyAutoTx (r :: rules) t = applyAutoTx rules (applyRule r t) := rfl

theorem applyAutoTx_sameCore (rules : List Rule) (t : Tx) :
    SameCore t (applyAutoTx rules t) := by
  induction rules generalizing t with
  | nil => exact sameCore_refl t
  | cons r rs ih =>
    rw [applyAutoTx_cons]
    exact sameCore_trans (applyRule_sameCore r t) (ih (applyRule r t))

theorem applyAutoTx_categoria_of_ne (rules : List Rule) (t : Tx)
    (h : t.categoria ≠ "") : (applyAutoTx rules t).categoria = t.categoria := by
  induction rules generalizing t with
  | nil => rfl
  | cons r rs ih =>
    rw [applyAutoTx_cons]
    have h1 := applyRule_categoria_of_ne r t h
    rw [ih (applyRule r t) (by rw [h1]; exact h), h1]

theorem applyAutoTx_categoria_empty (rules : List Rule) (t : Tx)
    (h : (applyAutoTx rules t).categoria = "") : t.categoria = "" := by
  induction rules generalizing t with
  | nil => exact h
  | cons r rs ih =>
    rw [applyAutoTx_cons] at h
    exact applyRule_categoria_empty r t (ih (applyRule r t) h)

theorem applyAutoTx_fornecedor_of_ne (rules : List Rule) (t : Tx)
    (h : t.fornecedor ≠ "") : (applyAutoTx rules t).fornecedor = t.fornecedor := by
  induction rules generalizing t with
  | nil => rfl
  | cons r rs ih =>
    rw [applyAutoTx_cons]
    have h1 := applyRule_fornecedor_of_ne r t h
    rw [ih (applyRule r t) (by rw [h1]; exact h), h1]

theorem applyAutoTx_fornecedor_empty (rules : List Rule) (t : Tx)
    (h : (applyAutoTx rules t).fornecedor = "") : t.fornecedor = "" := by
  induction rules generalizing t with
  | nil => exact h
  | cons r rs ih =>
    rw [applyAutoTx_cons] at h
    exact applyRule_fornecedor_empty r t (ih (applyRule r t) h)

/-! ### Status behaviour -/

theorem empty_not_mem_nomatch : "" ∉ AUTO_NO_MATCH_CATS := by decide

theorem applyRuleStatus_na_of (r : Rule) (t : Tx) (h : t.status_match = "N/A") :
    (applyRuleStatus r t).status_match = "N/A" := by
  unfold applyRuleStatus
  split
  · rfl
  · exact h

theorem applyRule_status_na (r : Rule) (t : Tx) (h : t.status_match = "N/A") :
    (applyRule r t).status_match = "N/A" := by
  unfold applyRule
  exact applyRuleStatus_na_of r (applyRuleSup r (applyRuleCat r t))
    (by rw [applyRuleSup_status_match, applyRuleCat_status_match]; exact h)

theorem applyAutoTx_status_na (rules : List Rule) (t : Tx)
    (h : t.status_match = "N/A") : (applyAutoTx rules t).status_match = "N/A" := by
  induction rules generalizing t with
  | nil => exact h
  | cons r rs ih =>
    rw [applyAutoTx_cons]
    exact ih (applyRule r t) (applyRule_status_na r t h)

/-- If one rule application moves the category into the no-match set, the
same application already sets the status to `N/A` (the status line of
src/app.py line 185 reads the just-updated category). -/
theorem applyRule_status_set (r : Rule) (t : Tx) (hv : t.valor < 0)
    (hnot : t.categoria ∉ AUTO_NO_MATCH_CATS)
    (hin : (applyRule r t).categoria ∈ AUTO_NO_MATCH_CATS) :
    (applyRule r t).status_match = "N/A" := by
  rw [applyRule_categoria_eq] at hin
  by_cases hc : ruleMatches r t = true ∧ r.category ≠ "" ∧ t.categoria = ""
  · have s1 := applyRuleCat_sameCore r t
    have s2 := applyRuleSup_sameCore r (applyRuleCat r t)
    unfold applyRule applyRuleStatus
    rw [if_pos]
    constructor
    · rw [ruleMatches_of_sameCore s2 r, ruleMatches_of_sameCore s1 r]
      exact hc.1
    constructor
    · rw [s2.2.2.2.2.2.2.1, s1.2.2.2.2.2.2.1]
      exact hv
    · rw [applyRuleSup_categoria]
      exact hin
  · exfalso
    have : applyRuleCat r t = t := by unfold applyRuleCat; rw [if_neg hc]
    rw [this] at hin
    exact hnot hin

/-- If the row category already is a no-match category and the rule
matches, the rule application sets the status to `N/A`. -/
theorem applyRule_status_already (r : Rule) (t : Tx) (hv : t.valor < 0)
    (hc : t.categoria ∈ AUTO_NO_MATCH_CATS) (hm : ruleMatches r t = true) :
    (applyRule r t).status_match = "N/A" := by
  have hne : t.categoria ≠ "" := fun e => empty_not_mem_nomatch (e ▸ hc)
  have s1 := applyRuleCat_sameCore r t
  have s2 := applyRuleSup_sameCore r (applyRuleCat r t)
  unfold applyRule applyRuleStatus
  rw [if_pos]
  constructor
  · rw [ruleMatches_of_sameCore s2 r, ruleMatches_of_sameCore s1 r]
    exact hm
  constructor
  · rw [s2.2.2.2.2.2.2.1, s1.2.2.2.2.2.2.1]
    exact hv
  · rw [applyRuleSup_categoria, applyRuleCat_cat_of_ne r t hne]
    exact hc

/-- If the loop moves the category of a negative row into the no-match
set, the loop also sets the status to `N/A`. -/
theorem applyAutoTx_status_set (rules : List Rule) (t : Tx) (hv : t.valor < 0)
    (hnot : t.categoria ∉ AUTO_NO_MATCH_CATS)
    (hin : (applyAutoTx rules t).categoria ∈ AUTO_NO_MATCH_CATS) :
    (applyAutoTx rules t).status_match = "N/A" := by
  induction rules generalizing t with
  | nil => exact absurd hin hnot
  | cons r rs ih =>
    rw [applyAutoTx_cons] at hin ⊢
    by_cases h1 : (applyRule r t).categoria ∈ AUTO_NO_MATCH_CATS
    · exact applyAutoTx_status_na rs (applyRule r t)
        (applyRule_status_set r t hv hnot h1)
    · have hv1 : (applyRule r t).valor < 0 := by
        rw [(applyRule_sameCore r t).2.2.2.2.2.2.1]; exact hv
      exact ih (applyRule r t) hv1 h1 hin

/-- Per-row status characterization: one rule application either leaves
the status alone or sets it to `N/A`, the latter only on a negative row
whose resulting category is a no-match category. -/
theorem applyRule_status_or (r : Rule) (t : Tx) :
    (applyRule r t).status_match = t.status_match ∨
      ((applyRule r t).status_match = "N/A" ∧ t.valor < 0 ∧
        (applyRule r t).categoria ∈ AUTO_NO_MATCH_CATS) := by
  have s1 := applyRuleCat_sameCore r t
  have s2 := applyRuleSup_sameCore r (applyRuleCat r t)
  unfold applyRule applyRuleStatus
  split
  · rename_i hcond
    right
    refine ⟨rfl, ?_, ?_⟩
    · have := hcond.2.1
      rw [s2.2.2.2.2.2.2.1, s1.2.2.2.2.2.2.1] at this
      exact this
    · show (applyRuleSup r (applyRuleCat r t)).categoria ∈ AUTO_NO_MATCH_CATS
      exact hcond.2.2
  · left
    rw [applyRuleSup_status_match, applyRuleCat_status_match]

/-- Loop-level status characterization. -/
theorem applyAutoTx_status_or (rules : List Rule) (t : Tx) :
    (applyAutoTx rules t).status_match = t.status_match ∨
      ((applyAutoTx rules t).status_match = "N/A" ∧ t.valor < 0 ∧
        (applyAutoTx rules t).categoria ∈ AUTO_NO_MATCH_CATS) := by
  induction rules generalizing t with
  | nil => left; rfl
  | cons r rs ih =>
    rw [applyAutoTx_cons]
    rcases ih (applyRule r t) with h | ⟨hna, hvp, hcp⟩
    · rcases applyRule_status_or r t with h0 | ⟨h0, hv0, hc0⟩
      · left
        rw [h, h0]
      · right
        refine ⟨by rw [h, h0], hv0, ?_⟩
        have hne : (applyRule r t).categoria ≠ "" :=
          fun e => empty_not_mem_nomatch (e ▸ hc0)
        rw [applyAutoTx_categoria_of_ne rs (applyRule r t) hne]
        exact hc0
    · right
      refine ⟨hna, ?_, hcp⟩
      rw [(applyRule_sameCore r t).2.2.2.2.2.2.1] at hvp
      exact hvp

/-! ### Idempotence of the rule loop -/

theorem tx_set_status_self (u : Tx) (h : u.status_match = "N/A") :
    { u with status_match := "N/A" } = u := by
  cases u
  simp_all

/-- Re-applying a rule after the whole loop has run is a no-op. -/
theorem applyRule_fix (rules : List Rule) (t : Tx) (r : Rule) (hr : r ∈ rules) :
    applyRule r (applyAutoTx rules t) = applyAutoTx rules t := by
  induction rules generalizing t with
  | nil => cases hr
  | cons r0 rs ih =>
    rw [applyAutoTx_cons]
    rcases List.mem_cons.mp hr with he | hm
    · subst he
      set t1 := applyRule r t with ht1
      set u := applyAutoTx rs t1 with hu
      have st : SameCore t t1 := applyRule_sameCore r t
      have su : SameCore t1 u := applyAutoTx_sameCore rs t1
      have hmatch : ruleMatches r u = ruleMatches r t := by
        rw [ruleMatches_of_sameCore su r, ruleMatches_of_sameCore st r]
      have step1 : applyRuleCat r u = u := by
        unfold applyRuleCat
        rw [if_neg]
        rintro ⟨hm1, hcne, hcu⟩
        have ht' : t.categoria = "" :=
          applyRule_categoria_empty r t (applyAutoTx_categoria_empty rs t1 hcu)
        have hmt : ruleMatches r t = true := by rw [← hmatch]; exact hm1
        have hset : t1.categoria = r.category := by
          rw [ht1, applyRule_categoria_eq]
          unfold applyRuleCat
          rw [if_pos ⟨hmt, hcne, ht'⟩]
        have : u.categoria = r.category := by
          rw [hu, applyAutoTx_categoria_of_ne rs t1 (by rw [hset]; exact hcne), hset]
        exact hcne (this ▸ hcu)
      have step2 : applyRuleSup r u = u := by
        unfold applyRuleSup
        rw [if_neg]
        rintro ⟨hm1, hsne, hsu⟩
        have ht' : t.fornecedor = "" :=
          applyRule_fornecedor_empty r t (applyAutoTx_fornecedor_empty rs t1 hsu)
        have hmt : ruleMatches r t = true := by rw [← hmatch]; exact hm1
        have hset : t1.fornecedor = r.supplier := by
          rw [ht1, applyRule_fornecedor_eq]
          rw [applyRuleSup]
          rw [if_pos ⟨by rw [ruleMatches_of_sameCore (applyRuleCat_sameCore r t) r]; exact hmt,
                hsne, by rw [applyRuleCat_fornecedor]; exact ht'⟩]
        have : u.fornecedor = r.supplier := by
          rw [hu, applyAutoTx_fornecedor_of_ne rs t1 (by rw [hset]; exact hsne), hset]
        exact hsne (this ▸ hsu)
      have step3 : applyRuleStatus r u = u := by
        unfold applyRuleStatus
        split
        · rename_i hcond
          refine tx_set_status_self u ?_
          have hvt : t.valor < 0 := by
            have := hcond.2.1
            rw [su.2.2.2.2.2.2.1, st.2.2.2.2.2.2.1] at this
            exact this
          by_cases h1 : t1.categoria ∈ AUTO_NO_MATCH_CATS
          · by_cases h0 : t.categoria ∈ AUTO_NO_MATCH_CATS
            · have : t1.status_match = "N/A" :=
                applyRule_status_already r t hvt h0 (by rw [← hmatch]; exact hcond.1)
              exact applyAutoTx_status_na rs t1 this
            · have : t1.status_match = "N/A" := applyRule_status_set r t hvt h0 h1
              exact applyAutoTx_status_na rs t1 this
          · have hvt1 : t1.valor < 0 := by
              rw [st.2.2.2.2.2.2.1]; exact hvt
            exact applyAutoTx_status_set rs t1 hvt1 h1 hcond.2.2
        · rfl
      show applyRule r u = u
      unfold applyRule
      rw [step1, step2, step3]
    · exact ih (applyRule r0 t) hm

theorem applyAutoTx_fix_of (rules : List Rule) (u : Tx)
    (h : ∀ r ∈ rules, applyRule r u = u) : applyAutoTx rules u = u := by
  induction rules with
  | nil => rfl
  | cons r rs ih =>
    rw [applyAutoTx_cons, h r (List.mem_cons_self r rs)]
    exact ih (fun r' hr' => h r' (List.mem_cons_of_mem r hr'))

/-- The rule loop is idempotent on every row. -/
theorem applyAutoTx_idem (rules : List Rule) (t : Tx) :
    applyAutoTx rules (applyAutoTx rules t) = applyAutoTx rules t :=
  applyAutoTx_fix_of rules (applyAutoTx rules t)
    (fun r hr => applyRule_fix rules t r hr)

theorem applyAuto_eq_map (rules : List Rule) (df : List Tx) :
    applyAuto rules df = df.map (applyAutoTx rules) := by
  cases df with
  | nil => rfl
  | cons t ts => rfl

theorem applyAuto_idem (rules : List Rule) (df : List Tx) :
    applyAuto rules (applyAuto rules df) = applyAuto rules df := by
  rw [applyAuto_eq_map, applyAuto_eq_map, List.map_map]
  induction df with
  | nil => rfl
  | cons t ts ih =>
    simp only [List.map_cons, Function.comp_apply, applyAutoTx_idem]
    rw [ih]

/-! ### Deduplication lemmas -/

theorem dropDupsBy_nil (seen : List String) : dropDupsBy seen [] = [] := rfl

theorem dropDupsBy_cons (seen : List String) (t : Tx) (rest : List Tx) :
    dropDupsBy seen (t :: rest) =
      if t.tx_id ∈ seen then dropDupsBy seen rest
      else t :: dropDupsBy (t.tx_id :: seen) rest := rfl

theorem dropDupsBy_sub_empty (seen : List String) (l : List Tx)
    (h : ∀ x ∈ l, x.tx_id ∈ seen) : dropDupsBy seen l = [] := by
  induction l with
  | nil => rfl
  | cons t rest ih =>
    rw [dropDupsBy_cons, if_pos (h t (List.mem_cons_self t rest))]
    exact ih (fun x hx => h x (List.mem_cons_of_mem t hx))

theorem dropDupsBy_cover (seen : List String) (l : List Tx) (x : Tx) (hx : x ∈ l) :
    x.tx_id ∈ seen ∨ x.tx_id ∈ (dropDupsBy seen l).map Tx.tx_id := by
  induction l generalizing seen with
  | nil => cases hx
  | cons t rest ih =>
    rw [dropDupsBy_cons]
    rcases List.mem_cons.mp hx with he | hm
    · subst he
      by_cases hs : x.tx_id ∈ seen
      · left; exact hs
      · right
        rw [if_neg hs, List.map_cons]
        exact List.mem_cons_self _ _
    · by_cases hs : t.tx_id ∈ seen
      · rw [if_pos hs]
        exact ih seen hm
      · rw [if_neg hs, List.map_cons]
        rcases ih (t.tx_id :: seen) hm with hl | hr
        · rcases List.mem_cons.mp hl with he2 | hs2
          · right; rw [he2]; exact List.mem_cons_self _ _
          · left; exact hs2
        · right; exact List.mem_cons_of_mem _ hr

theorem dropDupsBy_nodup (seen : List String) (l : List Tx) :
    ((dropDupsBy seen l).map Tx.tx_id).Nodup ∧
      ∀ i ∈ (dropDupsBy seen l).map Tx.tx_id, i ∉ seen := by
  induction l generalizing seen with
  | nil => exact ⟨List.nodup_nil, fun i hi => absurd hi (List.not_mem_nil i)⟩
  | cons t rest ih =>
    rw [dropDupsBy_cons]
    by_cases hs : t.tx_id ∈ seen
    · rw [if_pos hs]
      exact ih seen
    · rw [if_neg hs, List.map_cons]
      obtain ⟨hnd, hni⟩ := ih (t.tx_id :: seen)
      constructor
      · rw [List.nodup_cons]
        refine ⟨fun hmem => ?_, hnd⟩
        exact hni t.tx_id hmem (List.mem_cons_self _ _)
      · intro i hi hiseen
        rcases List.mem_cons.mp hi with he | hm
        · exact hs (he ▸ hiseen)
        · exact hni i hm (List.mem_cons_of_mem _ hiseen)

theorem dropDupsBy_absorb (seen : List String) (l1 l2 : List Tx)
    (h1 : (l1.map Tx.tx_id).Nodup)
    (h2 : ∀ i ∈ l1.map Tx.tx_id, i ∉ seen)
    (h3 : ∀ x ∈ l2, x.tx_id ∈ seen ∨ x.tx_id ∈ l1.map Tx.tx_id) :
    dropDupsBy seen (l1 ++ l2) = l1 := by
  induction l1 generalizing seen with
  | nil =>
    rw [List.nil_append]
    refine dropDupsBy_sub_empty seen l2 (fun x hx => ?_)
    rcases h3 x hx with h | h
    · exact h
    · exact absurd h (List.not_mem_nil x.tx_id)
  | cons t l1' ih =>
    have hts : t.tx_id ∉ seen :=
      h2 t.tx_id (by rw [List.map_cons]; exact List.mem_cons_self _ _)
    rw [List.cons_append, dropDupsBy_cons, if_neg hts]
    congr 1
    rw [List.map_cons, List.nodup_cons] at h1
    refine ih (t.tx_id :: seen) h1.2 ?_ ?_
    · intro i hi hmem
      rcases List.mem_cons.mp hmem with he | hs
      · exact h1.1 (he ▸ hi)
      · exact h2 i (by rw [List.map_cons]; exact List.mem_cons_of_mem _ hi) hs
    · intro x hx
      rcases h3 x hx with h | h
      · left; exact List.mem_cons_of_mem _ h
      · rw [List.map_cons] at h
        rcases List.mem_cons.mp h with he | hm
        · left; rw [he]; exact List.mem_cons_self _ _
        · right; exact hm

/-! ### The import commit -/

theorem applyAuto_map_tx_id (rules : List Rule) (df : List Tx) :
    (applyAuto rules df).map Tx.tx_id = df.map Tx.tx_id := by
  rw [applyAuto_eq_map, List.map_map]
  induction df with
  | nil => rfl
  | cons t ts ih =>
    simp only [List.map_cons, Function.comp_apply]
    rw [(applyAutoTx_sameCore rules t).1, ih]

theorem applyAuto_length (rules : List Rule) (df : List Tx) :
    (applyAuto rules df).length = df.length := by
  rw [applyAuto_eq_map, List.length_map]

/-- After one import of a batch, re-deduplicating the saved state against
any batch carrying only already present ids is the identity. -/
theorem dedup_after_import (base tmp tmp' : List Tx) (rules : List Rule)
    (h : ∀ t ∈ tmp', t.tx_id ∈ tmp.map Tx.tx_id) :
    dropDuplicatesByTxId (importStep base tmp rules ++ tmp') =
      importStep base tmp rules := by
  unfold importStep dropDuplicatesByTxId
  set d := dropDuplicatesByTxId (base ++ tmp) with hd
  have hids : (applyAuto rules d).map Tx.tx_id = d.map Tx.tx_id :=
    applyAuto_map_tx_id rules d
  refine dropDupsBy_absorb [] (applyAuto rules d) tmp' ?_ ?_ ?_
  · rw [hids, hd]
    exact (dropDupsBy_nodup [] (base ++ tmp)).1
  · intro i _ hmem
    exact absurd hmem (List.not_mem_nil i)
  · intro x hx
    right
    rw [hids]
    have hxid : x.tx_id ∈ tmp.map Tx.tx_id := h x hx
    obtain ⟨y, hy, hyid⟩ := List.mem_map.mp hxid
    have := dropDupsBy_cover [] (base ++ tmp) y (List.mem_append_right base hy)
    rcases this with hcontra | hcov
    · exact absurd hcontra (List.not_mem_nil y.tx_id)
    · rw [← hyid]
      exact hcov

/-! ### Pointwise lifting to row lists -/

theorem forall2_map_self {α : Type} (f : α → α) (R : α → α → Prop) (l : List α)
    (h : ∀ x ∈ l, R x (f x)) : List.Forall₂ R l (l.map f) := by
  induction l with
  | nil => exact List.Forall₂.nil
  | cons a as ih =>
    rw [List.map_cons]
    exact List.Forall₂.cons (h a (List.mem_cons_self a as))
      (ih (fun x hx => h x (List.mem_cons_of_mem a hx)))

theorem learnRule_category (d c f : String) (A : Rule)
    (h : learnRuleFromMatch d c f = some A) : A.category = c ∧ c ≠ "" := by
  unfold learnRuleFromMatch at h
  split at h
  · cases h
  · rename_i hcond
    have hcne : c ≠ "" := fun e => hcond (Or.inr e)
    split at h
    · cases h
    · cases h
      exact ⟨rfl, hcne⟩

/-! ### Concrete rows used by the closed theorems -/

/-- An outbound bank-fee row, pending, used as the concrete import batch. -/
def w1tx : Tx :=
  { baseTx with
    tx_id := "t1", empresa := "Alivvia", conta := "Mercado Pago",
    data := some ⟨2024, 3, 1⟩, descricao := "Tarifa de manutencao", doc := "d1",
    valor := -10, status_match := "Pendente", origem := "EXTRATO" }

/-- The bank-fee default rule (first no-match rule of `DEFAULT_RULES`). -/
def w1rule : Rule :=
  { contains := ["tarifa", "iof", "chargeback", "debito"], in_doc := [],
    category := "Deduções > Taxas/Chargebacks (marketplace)", supplier := "" }

/-- An outbound pending row offered on the conciliation screen. -/
def c4tx : Tx :=
  { baseTx with
    tx_id := "out1", empresa := "Alivvia", conta := "Mercado Pago",
    data := some ⟨2024, 3, 5⟩, descricao := "pagamento fornecedor", doc := "d9",
    valor := -5, status_match := "Pendente", origem := "EXTRATO" }

/-- The rule learned from the description `THOR pagamento`: first
alphanumeric token of length at least 4, lower cased. -/
def w8A : Rule :=
  { contains := ["thor"], in_doc := [],
    category := "Custo > Aquisição/Fornecedores", supplier := "Thor" }

/-- An older rule matching the same description with another category. -/
def w8B : Rule :=
  { contains := ["thor"], in_doc := [], category := "Despesas > Marketing",
    supplier := "" }

/-- The unclassified outbound row both rules match. -/
def w8tx : Tx :=
  { baseTx with
    tx_id := "t8", empresa := "Alivvia", conta := "Mercado Pago",
    data := some ⟨2024, 3, 7⟩, descricao := "THOR pagamento", doc := "d8",
    valor := -50, status_match := "Pendente", origem := "EXTRATO" }

/-- First marketplace payout of 2024-03-01, amount 10.00. -/
def c5p1 : Tx :=
  { baseTx with
    tx_id := "p1", empresa := "Alivvia", conta := "Mercado Pago",
    data := some ⟨2024, 3, 1⟩, descricao := "Entrada de dinheiro", doc := "m1",
    valor := 10, categoria := REPASSE, status_match := "N/A",
    origem := "EXTRATO" }

/-- Second marketplace payout of 2024-03-01, amount 5.00. -/
def c5p2 : Tx :=
  { baseTx with
    tx_id := "p2", empresa := "Alivvia", conta := "Mercado Pago",
    data := some ⟨2024, 3, 1⟩, descricao := "Pix recebido", doc := "m2",
    valor := 5, categoria := REPASSE, status_match := "N/A",
    origem := "EXTRATO" }

/-- Third marketplace payout of 2024-03-01, amount 2.50. -/
def c5p3 : Tx :=
  { baseTx with
    tx_id := "p3", empresa := "Alivvia", conta := "Mercado Pago",
    data := some ⟨2024, 3, 1⟩, descricao := "QRCode Pix", doc := "m3",
    valor := mkRat 5 2, categoria := REPASSE, status_match := "N/A",
    origem := "EXTRATO" }

/-- A non-payout row of the same month. -/
def c5out : Tx :=
  { baseTx with
    tx_id := "s1", empresa := "Alivvia", conta := "Mercado Pago",
    data := some ⟨2024, 3, 2⟩, descricao := "Tarifa bancaria", doc := "m4",
    valor := -3, categoria := "Despesas > Tarifas bancárias",
    status_match := "N/A", origem := "EXTRATO" }

/-- The stored frame of the consolidation scenario. -/
def c5df : List Tx := [c5p1, c5p2, c5p3, c5out]

/-! ### The claims -/

/-- C1: importing a batch, then importing any batch carrying the same
content-derived ids (an identical file re-read, timestamps aside), leaves
the stored transaction set unchanged and reports zero newly inserted rows;
and re-running auto-classification with an unchanged rule set is a fixed
point. -/
theorem import_idempotent (base tmp tmp' : List Tx) (rules : List Rule)
    (df : List Tx) (h : ∀ t ∈ tmp', t.tx_id ∈ tmp.map Tx.tx_id) :
    importStep (importStep base tmp rules) tmp' rules =
        importStep base tmp rules ∧
      newlyInserted (importStep base tmp rules) tmp' = 0 ∧
      applyAuto rules (applyAuto rules df) = applyAuto rules df := by
  have hd := dedup_after_import base tmp tmp' rules h
  refine ⟨?_, ?_, applyAuto_idem rules df⟩
  · show applyAuto rules (dropDuplicatesByTxId (importStep base tmp rules ++ tmp')) =
      importStep base tmp rules
    rw [hd]
    exact applyAuto_idem rules (dropDuplicatesByTxId (base ++ tmp))
  · unfold newlyInserted
    rw [hd]
    exact sub_self _

/-- Witness for C1 at a concrete one-row batch and the bank-fee rule. -/
theorem import_idempotent_witness :
    (∀ t ∈ [w1tx], t.tx_id ∈ [w1tx].map Tx.tx_id) ∧
      (importStep (importStep [] [w1tx] [w1rule]) [w1tx] [w1rule] =
          importStep [] [w1tx] [w1rule] ∧
        newlyInserted (importStep [] [w1tx] [w1rule]) [w1tx] = 0 ∧
        applyAuto [w1rule] (applyAuto [w1rule] [w1tx]) =
          applyAuto [w1rule] [w1tx]) :=
  ⟨by with_unfolding_all decide,
   import_idempotent [] [w1tx] [w1tx] [w1rule] [w1tx]
     (by with_unfolding_all decide)⟩

/-- C2 counterexample: the hash input joins the fields with `-`, a
character that also occurs inside field values, so the two distinct
tuples of the claim (description `a-b` with doc `c`, and description `a`
with doc `b-c`) produce identical hash inputs and hence identical
`tx_id`s: the claimed collision-freedom is false. -/
theorem hash_separator_collision :
    ("a-b" : String) ≠ "a" ∧
      hashInput "Alivvia" "Mercado Pago" (some ⟨2024, 3, 1⟩) "a-b" "c" (-5) =
        hashInput "Alivvia" "Mercado Pago" (some ⟨2024, 3, 1⟩) "a" "b-c" (-5) := by
  with_unfolding_all decide

/-- C2 amended: the hash identity is deterministic (equal field tuples
give equal hash inputs and so equal `tx_id`s), but not collision free:
the `-` separator also occurs inside field values, so the claim's own
example pair collides. -/
theorem hash_deterministic_not_injective :
    (∀ (e c : String) (dt : Option Date) (de dc : String) (v : ℚ)
        (e' c' : String) (dt' : Option Date) (de' dc' : String) (v' : ℚ),
        e = e' ∧ c = c' ∧ dt = dt' ∧ de = de' ∧ dc = dc' ∧ v = v' →
          hashInput e c dt de dc v = hashInput e' c' dt' de' dc' v') ∧
      hashInput "Alivvia" "Mercado Pago" (some ⟨2024, 3, 1⟩) "a-b" "c" (-5) =
        hashInput "Alivvia" "Mercado Pago" (some ⟨2024, 3, 1⟩) "a" "b-c" (-5) := by
  constructor
  · rintro e c dt de dc v e' c' dt' de' dc' v' ⟨h1, h2, h3, h4, h5, h6⟩
    rw [h1, h2, h3, h4, h5, h6]
  · with_unfolding_all decide

/-- Witness for the determinism half of the amended C2. -/
theorem hash_deterministic_not_injective_witness :
    hashInput "E" "C" none "d" "x" 1 = hashInput "E" "C" none "d" "x" 1 :=
  hash_deterministic_not_injective.1 "E" "C" none "d" "x" 1 "E" "C" none "d" "x" 1
    ⟨rfl, rfl, rfl, rfl, rfl, rfl⟩

/-- C3: auto-classification never overwrites a non-empty category or
supplier; each row keeps its category (resp. supplier) unless that field
was empty. -/
theorem auto_classification_nondestructive (rules : List Rule) (df : List Tx) :
    List.Forall₂
      (fun t u => (t.categoria = "" ∨ u.categoria = t.categoria) ∧
        (t.fornecedor = "" ∨ u.fornecedor = t.fornecedor))
      df (applyAuto rules df) := by
  rw [applyAuto_eq_map]
  refine forall2_map_self _ _ df (fun t _ => ⟨?_, ?_⟩)
  · by_cases h : t.categoria = ""
    · left; exact h
    · right; exact applyAutoTx_categoria_of_ne rules t h
  · by_cases h : t.fornecedor = ""
    · left; exact h
    · right; exact applyAutoTx_fornecedor_of_ne rules t h

/-- C4 counterexample: Save Match with an empty category is not rejected
and does mutate the stored row: on a concrete outbound pending row it sets
the status to `Conciliado` and changes the stored list.  No reason string
exists on this path in the source. -/
theorem save_match_empty_category_mutates :
    (saveMatch [c4tx] "out1" "" "" "" "" [] "T1").map Tx.status_match =
        ["Conciliado"] ∧
      c4tx.status_match = "Pendente" ∧ c4tx.valor < 0 ∧
      saveMatch [c4tx] "out1" "" "" "" "" [] "T1" ≠ [c4tx] := by
  with_unfolding_all decide

/-- C4 amended: inbound transactions (amount at least 0) never appear in
the conciliation view, whose base mask keeps only rows with negative
amount, so Save Match cannot be invoked on them, though no reason string
is produced; and Save Match itself performs no validation: invoked with an
empty category it unconditionally writes the empty category, the match
fields and status `Conciliado` into the selected row and leaves every
other row unchanged. -/
theorem reconciliation_filter_and_unvalidated_save :
    (∀ (df : List Tx) (empresa : String) (t : Tx),
        t ∈ conciliacaoOptions df empresa → t.valor < 0) ∧
      (∀ (df : List Tx) (txid forn nf parc : String) (datas : List Date)
          (now : String),
        List.Forall₂
          (fun t u =>
            if t.tx_id = txid then
              u.categoria = "" ∧ u.status_match = "Conciliado" ∧
                u.updated_at = now ∧ u.fornecedor = forn ∧ u.nf = nf ∧
                u.parcela = parc ∧ u.datas_livres = datas ∧
                u.tx_id = t.tx_id ∧ u.valor = t.valor ∧ u.data = t.data ∧
                u.descricao = t.descricao ∧ u.doc = t.doc
            else u = t)
          df (saveMatch df txid "" forn nf parc datas now)) := by
  constructor
  · intro df empresa t ht
    unfold conciliacaoOptions at ht
    have hp := (List.mem_filter.mp ht).2
    unfold conciliacaoBaseMask at hp
    exact of_decide_eq_true ((Bool.and_eq_true _ _).mp hp).2
  · intro df txid forn nf parc datas now
    unfold saveMatch
    refine forall2_map_self _ _ df (fun t _ => ?_)
    by_cases h : t.tx_id = txid <;> simp [h, saveMatchTx]

/-- Witness for the filter half of the amended C4. -/
theorem reconciliation_filter_witness : c4tx.valor < 0 :=
  reconciliation_filter_and_unvalidated_save.1 [c4tx] "Alivvia" c4tx
    (by with_unfolding_all decide)

/-- C5: on the month holding exactly the three payout rows 10.00, 5.00 and
2.50 of 2024-03-01 (plus a non-payout row), the DRE gross revenue is 17.50
as the claim states; but the accounting ledger view is never produced:
line 717 of the source selects the column `empresa` from the grouped
payout frame, which no longer carries it after
`groupby(...).agg(...)`, so pandas raises a `KeyError` whenever a payout
row exists in the month. -/
theorem report_consolidation_keyerror :
    receitaBruta (relatoriosDfE c5df "Alivvia" 2024 3) = mkRat 35 2 ∧
      (relatoriosDfE c5df "Alivvia" 2024 3).filter
          (fun t => t.categoria == REPASSE) = [c5p1, c5p2, c5p3] ∧
      "empresa" ∉ ent_group_columns ∧
      "empresa" ∈ entradas_fmt_selection ∧
      relatoriosContabil (relatoriosDfE c5df "Alivvia" 2024 3) =
        Except.error "KeyError: ['empresa'] not in index" := by
  refine ⟨by with_unfolding_all rfl, by with_unfolding_all rfl, by decide,
    by decide, by with_unfolding_all rfl⟩

/-- C6 counterexample: the amount normalization deletes every dot before
parsing, so an input using a plain decimal point is not parsed to its
value: `123.45` becomes `12345`, not `123.45`. -/
theorem parse_plain_decimal_misparsed :
    parseValor "123.45" = mkRat 12345 1 ∧
      parseValor "123.45" ≠ mkRat 12345 100 := by
  decide

/-- C6 amended: the parser handles the grouped-thousands comma-decimal
convention exactly (`1.234,56` and `-1.234,56` parse to their values); a
plain decimal point input has its dots deleted first and parses as the
resulting digit string (`123.45` becomes `12345`); unparseable input
coerces to `0.0`; and normalization is row-preserving (one output per
input cell, none dropped) — but no manual-review marking of such rows
exists in the source. -/
theorem parse_amount_behavior :
    parseValor "1.234,56" = mkRat 123456 100 ∧
      parseValor "-1.234,56" = mkRat (-123456) 100 ∧
      parseValor "123.45" = mkRat 12345 1 ∧
      parseValor "abc" = 0 ∧ parseValor "" = 0 ∧
      ∀ vals : List String, (vals.map parseValor).length = vals.length := by
  refine ⟨by decide, by decide, by decide, by decide, by decide,
    fun vals => List.length_map vals parseValor⟩

/-- C7: Reopen changes only the match status (to `Pendente`) and
`updated_at` of the selected row; Undo clears category, supplier, nf,
installment and free dates, resets the status to `Pendente`, and leaves
the imported fields (id, dates, description, doc, amount, balance, origin,
creation time) untouched; rows with another id are unchanged by both. -/
theorem undo_reopen_frame (df : List Tx) (txid now : String) :
    List.Forall₂
      (fun t u =>
        if t.tx_id = txid then
          u.status_match = "Pendente" ∧ u.updated_at = now ∧
            u.categoria = t.categoria ∧ u.fornecedor = t.fornecedor ∧
            u.nf = t.nf ∧ u.parcela = t.parcela ∧
            u.datas_livres = t.datas_livres ∧ u.tx_id = t.tx_id ∧
            u.empresa = t.empresa ∧ u.conta = t.conta ∧ u.data = t.data ∧
            u.descricao = t.descricao ∧ u.doc = t.doc ∧ u.valor = t.valor ∧
            u.saldo = t.saldo ∧ u.origem = t.origem ∧
            u.created_at = t.created_at
        else u = t)
      df (reopenMatch df txid now) ∧
    List.Forall₂
      (fun t u =>
        if t.tx_id = txid then
          u.categoria = "" ∧ u.fornecedor = "" ∧ u.nf = "" ∧ u.parcela = "" ∧
            u.datas_livres = [] ∧ u.status_match = "Pendente" ∧
            u.updated_at = now ∧ u.tx_id = t.tx_id ∧ u.empresa = t.empresa ∧
            u.conta = t.conta ∧ u.data = t.data ∧ u.descricao = t.descricao ∧
            u.doc = t.doc ∧ u.valor = t.valor ∧ u.saldo = t.saldo ∧
            u.origem = t.origem ∧ u.created_at = t.created_at
        else u = t)
      df (undoMatch df txid now) := by
  constructor
  · unfold reopenMatch
    refine forall2_map_self _ _ df (fun t _ => ?_)
    by_cases h : t.tx_id = txid <;> simp [h]
  · unfold undoMatch
    refine forall2_map_self _ _ df (fun t _ => ?_)
    by_cases h : t.tx_id = txid <;> simp [h]

/-- C8: a rule learned from a saved match is inserted at the head of the
rule list, and on an unclassified row it matches, its category wins over
every older rule further down the list: evaluation is in list order and
the head-most matching rule with a non-empty category fills the field
first. -/
theorem rule_priority_head_wins (rules : List Rule) (d c f : String) (A : Rule)
    (hlearn : learnRuleFromMatch d c f = some A) (t : Tx)
    (hm : ruleMatches A t = true) (ht : t.categoria = "") :
    (applyAuto (rulesAfterLearn rules d c f) [t]).map Tx.categoria =
      [A.category] := by
  have hc := learnRule_category d c f A hlearn
  have hAne : A.category ≠ "" := by rw [hc.1]; exact hc.2
  have hrl : rulesAfterLearn rules d c f = A :: rules := by
    unfold rulesAfterLearn
    rw [hlearn]
  rw [hrl, applyAuto_eq_map]
  simp only [List.map_cons, List.map_nil]
  congr 1
  rw [applyAutoTx_cons]
  have h1 : (applyRule A t).categoria = A.category := by
    rw [applyRule_categoria_eq]
    unfold applyRuleCat
    rw [if_pos ⟨hm, hAne, ht⟩]
  rw [applyAutoTx_categoria_of_ne rules (applyRule A t) (by rw [h1]; exact hAne),
    h1]

/-- Witness for C8: the learned rule `thor` (category
`Custo > Aquisição/Fornecedores`) wins over the older marketing rule on a
row whose description both match. -/
theorem rule_priority_head_wins_witness :
    (learnRuleFromMatch "THOR pagamento" "Custo > Aquisição/Fornecedores"
        "Thor" = some w8A) ∧
      ruleMatches w8A w8tx = true ∧ w8tx.categoria = "" ∧
      (applyAuto (rulesAfterLearn [w8B] "THOR pagamento"
          "Custo > Aquisição/Fornecedores" "Thor") [w8tx]).map Tx.categoria =
        [w8A.category] :=
  ⟨by with_unfolding_all decide, by with_unfolding_all decide,
   by with_unfolding_all decide,
   rule_priority_head_wins [w8B] "THOR pagamento"
     "Custo > Aquisição/Fornecedores" "Thor" w8A
     (by with_unfolding_all decide) w8tx (by with_unfolding_all decide)
     (by with_unfolding_all decide)⟩

/-- C10: auto-classification returns exactly the same rows in the same
order; every field other than category, supplier and match status is
unchanged on every row; and the match status, when it changes, changes
only to `N/A`, only on a row with negative amount whose resulting category
is in the no-match set. -/
theorem auto_classification_frame (rules : List Rule) (df : List Tx) :
    (applyAuto rules df).length = df.length ∧
      List.Forall₂
        (fun t u => SameCore t u ∧
          (u.status_match = t.status_match ∨
            (u.status_match = "N/A" ∧ t.valor < 0 ∧
              u.categoria ∈ AUTO_NO_MATCH_CATS)))
        df (applyAuto rules df) := by
  refine ⟨applyAuto_length rules df, ?_⟩
  rw [applyAuto_eq_map]
  exact forall2_map_self _ _ df
    (fun t _ => ⟨applyAutoTx_sameCore rules t, applyAutoTx_status_or rules t⟩)

end Alivvia
